import Mathlib

/-!
Verification of the Netflux movie-application repository.

The Python data model and operations are shallowly embedded:
`Movie` and `User` become structures, the `Catalog` becomes a `List Movie`,
mutating methods become functions returning `Bool × User`, and file-backed
operations take the file contents as an explicit argument, with failure
modelled by `Except`.  String manipulation mirrors Python string methods
on the character-list level (`str.split`, `str.strip`, `str.lower`,
substring membership, `int(...)` conversion).
-/

namespace Netflux

/-- Model of Python `str.split(sep)` for a single-character separator,
acting on character lists: `"".split(sep) == [""]`, separators delimit
(possibly empty) fields. -/
def splitListOn (sep : Char) : List Char → List (List Char)
| [] => [[]]
| c :: cs =>
  let r := splitListOn sep cs
  if c = sep then [] :: r
  else
    match r with
    | cur :: rest => (c :: cur) :: rest
    | [] => [[c]]

/-- Python `s.split(sep)` for one-character `sep`, on `String`. -/
def pySplit (sep : Char) (s : String) : List String :=
  (splitListOn sep s.toList).map (fun cs => String.mk cs)

/-- Python `s.strip()`: drop leading and trailing whitespace
(ASCII whitespace model). -/
def pyStrip (s : String) : String :=
  String.mk (((s.toList.dropWhile Char.isWhitespace).reverse.dropWhile Char.isWhitespace).reverse)

/-- Python `s.lower()` (ASCII model). -/
def pyLower (s : String) : String :=
  String.mk (s.toList.map Char.toLower)

/-- Python `s.split()` with no separator: split on whitespace runs,
discarding empty fields. -/
def pySplitWs (s : String) : List String :=
  ((splitListOn ' ' (String.mk (s.toList.map (fun c => if c.isWhitespace then ' ' else c))).toList).filter
    (fun cs => cs ≠ [])).map (fun cs => String.mk cs)

/-- Python substring test `pat in hay`. -/
def strIncludes (hay pat : String) : Bool :=
  decide (pat.toList <:+: hay.toList)

/-- Python `int(s)` on a decimal string: strip whitespace, optional sign,
then a nonempty digit run; `none` models a raised `ValueError`. -/
def pyInt? (s : String) : Option Int :=
  let t := (pyStrip s).toList
  let core : Option (Bool × List Char) :=
    match t with
    | '-' :: ds => some (true, ds)
    | '+' :: ds => some (false, ds)
    | ds => some (false, ds)
  match core with
  | some (neg, ds) =>
    if ds ≠ [] ∧ ds.all Char.isDigit then
      let n : Nat := ds.foldl (fun n c => 10 * n + (c.toNat - 48)) 0
      some (if neg then -(n : Int) else (n : Int))
    else none
  | none => none

/-- The `Movie` record from `src/models/movie.py` (the derived `tile_path`
and `video_path` strings are pure functions of `system_name` and omitted). -/
structure Movie where
  title : String
  year : Int
  minutes : Int
  genres : List String
  system_name : String
  director : String
  cast : String
  synopsis : String
deriving DecidableEq, Repr

/-- Python `Movie.__eq__`: equality is by `system_name` alone;
`sysMem m l` is `m in l` for a Python list of movies. -/
def sysMem (m : Movie) (l : List Movie) : Bool :=
  l.any (fun x => x.system_name == m.system_name)

/-- The `User` record from `src/user_manager/user.py`. -/
structure User where
  user_id : Int
  username : String
  email : String
  favorites : List String
  watchlist : List String
  watched : List String
  liked_genres : List String
deriving DecidableEq, Repr

/-- `User.add_favorite`: append if absent, report whether added. -/
def User.add_favorite (u : User) (film_code : String) : Bool × User :=
  if film_code ∈ u.favorites then (false, u)
  else (true, { u with favorites := u.favorites ++ [film_code] })

/-- `User.remove_favorite`: remove first occurrence if present. -/
def User.remove_favorite (u : User) (film_code : String) : Bool × User :=
  if film_code ∈ u.favorites then (true, { u with favorites := u.favorites.erase film_code })
  else (false, u)

/-- `User.add_to_watchlist`. -/
def User.add_to_watchlist (u : User) (film_code : String) : Bool × User :=
  if film_code ∈ u.watchlist then (false, u)
  else (true, { u with watchlist := u.watchlist ++ [film_code] })

/-- `User.remove_from_watchlist`. -/
def User.remove_from_watchlist (u : User) (film_code : String) : Bool × User :=
  if film_code ∈ u.watchlist then (true, { u with watchlist := u.watchlist.erase film_code })
  else (false, u)

/-- `User.mark_as_watched`: if not yet watched, append to `watched`,
then remove from the watchlist; otherwise do nothing and report `false`. -/
def User.mark_as_watched (u : User) (film_code : String) : Bool × User :=
  if film_code ∈ u.watched then (false, u)
  else
    let u1 : User := { u with watched := u.watched ++ [film_code] }
    (true, (u1.remove_from_watchlist film_code).2)

/-- `User.unmark_as_watched`. -/
def User.unmark_as_watched (u : User) (film_code : String) : Bool × User :=
  if film_code ∈ u.watched then (true, { u with watched := u.watched.erase film_code })
  else (false, u)

/-- `User.add_to_liked_genre` (the shadow `likedGenre` attribute is an
alias of the same list in Python and carries no extra state). -/
def User.add_to_liked_genre (u : User) (genre : String) : Bool × User :=
  if genre ∈ u.liked_genres then (false, u)
  else (true, { u with liked_genres := u.liked_genres ++ [genre] })

/-- `User.remove_a_liked_genre`. -/
def User.remove_a_liked_genre (u : User) (genre : String) : Bool × User :=
  if genre ∈ u.liked_genres then (true, { u with liked_genres := u.liked_genres.erase genre })
  else (false, u)

/-! ## Catalog operations (`src/models/catalog.py`), with the catalog's
movie list passed explicitly. -/

/-- `Catalog.get_movies_from_multiple_genres`: movies having at least one
of the given genres; an empty (falsy) genre list short-circuits to `[]`. -/
def getMoviesFromMultipleGenres (movies : List Movie) (genres_list : List String) : List Movie :=
  if genres_list.isEmpty then []
  else movies.filter (fun m => genres_list.any (fun g => m.genres.contains g))

/-- `Catalog.get_movie_by_system_name`: first movie with the given id. -/
def getMovieBySystemName (movies : List Movie) (system_name : String) : Option Movie :=
  movies.find? (fun m => m.system_name == system_name)

/-- `Catalog.get_movies_by_title`: empty (falsy) query yields `[]`;
otherwise keep movies whose lowercased title contains some lowercased
whitespace-separated keyword. -/
def getMoviesByTitle (movies : List Movie) (keywords : String) : List Movie :=
  if keywords == "" then []
  else
    let words := pySplitWs (pyLower keywords)
    movies.filter (fun m => words.any (fun w => strIncludes (pyLower m.title) w))

/-- `Catalog.get_movies_by_title_or_director`. -/
def getMoviesByTitleOrDirector (movies : List Movie) (keywords : String) : List Movie :=
  if keywords == "" then []
  else
    let words := pySplitWs (pyLower keywords)
    movies.filter (fun m =>
      let t := pyLower m.title
      let d := if m.director == "" then "" else pyLower m.director
      words.any (fun w => strIncludes t w || strIncludes d w))

/-! ## Loading the catalog from CSV (`Catalog.load_from_csv`).
The backing file is passed as `Option (List String)`: `none` models a
missing file, `some lines` its raw lines. -/

/-- Errors `load_from_csv` can raise. -/
inductive LoadError
| fileNotFound
| valueError
deriving DecidableEq, Repr

/-- Outcome of the loop body on one raw line: skipped (blank or fewer
than 5 fields), a parsed movie, or a raised `ValueError` from `int(...)`
inside `Movie.__init__`. -/
inductive LineResult
| skip
| good (m : Movie)
| err
deriving DecidableEq, Repr

/-- `Movie.__init__` field conversion: `int(year) if year else 0` and
`int(minutes)`; `none` models the raised `ValueError`. -/
def mkMovie (title year minutes : String) (genres : List String)
    (system_name director cast synopsis : String) : Option Movie :=
  let y := if year == "" then some (0 : Int) else pyInt? year
  match y, pyInt? minutes with
  | some yv, some mv =>
    some { title := title, year := yv, minutes := mv, genres := genres,
           system_name := system_name, director := director, cast := cast,
           synopsis := synopsis }
  | _, _ => none

/-- One iteration of the `load_from_csv` line loop. -/
def processLine (line : String) : LineResult :=
  let l := pyStrip line
  if l == "" then .skip
  else
    let parts := (pySplit ':' l).map pyStrip
    if parts.length < 5 then .skip
    else
      let title := parts.getD 0 ""
      let year := parts.getD 1 ""
      let minutes := parts.getD 2 ""
      let genres := parts.getD 3 ""
      let system_name := parts.getD 4 ""
      let director := parts.getD 5 ""
      let cast := parts.getD 6 ""
      let synopsis := parts.getD 7 ""
      let genre_list := (pySplit ',' genres).map pyStrip
      match mkMovie title year minutes genre_list system_name director cast synopsis with
      | some m => .good m
      | none => .err

/-- The `load_from_csv` loop over the body lines; a raised `ValueError`
aborts the whole load. -/
def loadLines : List String → Except LoadError (List Movie)
| [] => .ok []
| l :: rest =>
  match processLine l with
  | .skip => loadLines rest
  | .err => .error .valueError
  | .good m =>
    match loadLines rest with
    | .ok ms => .ok (m :: ms)
    | .error e => .error e

/-- `Catalog.load_from_csv` on explicit file contents: missing file
raises `FileNotFoundError`; otherwise the header line (starting with
`title:` after stripping) is dropped and the body lines are processed. -/
def loadFromCsv (file : Option (List String)) : Except LoadError (List Movie) :=
  match file with
  | none => .error .fileNotFound
  | some lines =>
    let body :=
      match lines with
      | [] => []
      | first :: rest =>
        if "title:".toList.isPrefixOf (pyStrip first).toList then rest else first :: rest
    loadLines body

/-! ## Controller operations (`src/controllers/movie_controller.py`). -/

/-- `MovieController._get_favorite_directors`: the set of comma-split,
stripped director names of the user's favorite movies that resolve in
the catalog and have a truthy (nonempty) `director` field.  The Python
`set` is modelled as a list; only membership and emptiness are consumed
downstream, and both are invariant under the representation. -/
def favoriteDirectors (movies : List Movie) (favorites : List String) : List String :=
  if favorites.isEmpty then []
  else favorites.foldl (fun acc movie_id =>
    match getMovieBySystemName movies movie_id with
    | some m => if m.director ≠ "" then acc ++ (pySplit ',' m.director).map pyStrip else acc
    | none => acc) []

/-- The director-matching pass condition of `get_recommended_movies`:
movie not yet recommended (Python `in` uses `Movie.__eq__`, i.e.
`system_name`), truthy director field, and some comma-split stripped
director in the favorite-director set. -/
def dirCond (favDirs : List String) (acc : List Movie) (m : Movie) : Bool :=
  !(sysMem m acc) && !(m.director == "") &&
    ((pySplit ',' m.director).map pyStrip).any (fun d => favDirs.contains d)

/-- `MovieController.get_recommended_movies`.  The `user` argument is
`Option User` (`None` is falsy).  The guard on line 143 of the source
chains its four conditions with `and`, and `hasattr` is always true for
a `User` instance, so that branch is unreachable for a present user and
does not appear here. -/
def getRecommendedMovies (movies : List Movie) (user : Option User) : List Movie :=
  match user with
  | none => []
  | some u =>
    let recs := getMoviesFromMultipleGenres movies u.liked_genres
    let favDirs := favoriteDirectors movies u.favorites
    let recs2 :=
      if favDirs.isEmpty then recs
      else movies.foldl (fun acc m => if dirCond favDirs acc m then acc ++ [m] else acc) recs
    if u.watched.isEmpty then recs2
    else recs2.filter (fun m => !(u.watched.contains m.system_name))

/-- `MovieController.get_favorite_movies`. -/
def getFavoriteMovies (movies : List Movie) (user : Option User) : List Movie :=
  match user with
  | none => []
  | some u =>
    if u.favorites.isEmpty then []
    else u.favorites.filterMap (fun movie_id => getMovieBySystemName movies movie_id)

/-- `MovieController.get_wathclist_movie` (sic). -/
def getWathclistMovie (movies : List Movie) (user : Option User) : List Movie :=
  match user with
  | none => []
  | some u =>
    if u.watchlist.isEmpty then []
    else u.watchlist.filterMap (fun movie_id => getMovieBySystemName movies movie_id)

/-- `MovieController.get_watched_movie`. -/
def getWatchedMovie (movies : List Movie) (user : Option User) : List Movie :=
  match user with
  | none => []
  | some u =>
    if u.watched.isEmpty then []
    else u.watched.filterMap (fun movie_id => getMovieBySystemName movies movie_id)

/-- `MovieController.search_movies` (return value; the cached
`_current_search` attribute is not consumed by any claim). -/
def searchMovies (movies : List Movie) (query : String) : List Movie :=
  let s := pyStrip query
  if s == "" then movies
  else getMoviesByTitleOrDirector movies s

/-- A single bucket update of `get_movies_grouped_by_genre`:
append the movie unless an equal one (by `system_name`) is present. -/
def updBucket (b : List Movie) (m : Movie) : List Movie :=
  if sysMem m b then b else b ++ [m]

/-- Ordered-dict update of `get_movies_grouped_by_genre` for one genre
of one movie: create the bucket at the end if the key is new, then
append the movie to it unless already present. -/
def addToBucket : List (String × List Movie) → String → Movie → List (String × List Movie)
| [], g, m => [(g, [m])]
| (k, b) :: rest, g, m =>
  if k = g then (k, updBucket b m) :: rest
  else (k, b) :: addToBucket rest g m

/-- The inner loop of `get_movies_grouped_by_genre` over one movie's
genre list. -/
def groupStep (acc : List (String × List Movie)) (m : Movie) : List (String × List Movie) :=
  m.genres.foldl (fun a g => addToBucket a g m) acc

/-- `MovieController.get_movies_grouped_by_genre` on an explicit movie
list (the kwarg default uses the full catalog); the Python dict is an
insertion-ordered association list. -/
def getMoviesGroupedByGenre (movie_list : List Movie) : List (String × List Movie) :=
  movie_list.foldl groupStep []

/-- Total number of (movie, genre) pairs across all buckets. -/
def totalPairs (grouped : List (String × List Movie)) : Nat :=
  (grouped.map (fun kb => kb.2.length)).sum

/-! ## User persistence (`User.to_dict` / `User.from_dict` /
`UserManager.load_users`).  A decoded JSON user object becomes a
`UserRecord` whose optional fields model `data["username"]`
(raising `KeyError` when absent) and the `data.get(..., default)`
accesses. -/

/-- A decoded JSON user object. -/
structure UserRecord where
  username : Option String
  user_id : Option Int
  favorites : List String
  watchlist : List String
  watched : List String
  likedGenres : List String
deriving DecidableEq, Repr

/-- `User.to_dict` (the `email` field is not serialized by the source). -/
def toDict (u : User) : UserRecord :=
  { username := some u.username, user_id := some u.user_id,
    favorites := u.favorites, watchlist := u.watchlist,
    watched := u.watched, likedGenres := u.liked_genres }

/-- `User.from_dict`: `data["username"]` raises `KeyError` when absent
(modelled by `Except.error`); a missing `user_id` falls back to the
timestamp-generated id, passed in as `genId`. -/
def fromDict (genId : Int) (r : UserRecord) : Except Unit User :=
  match r.username with
  | none => .error ()
  | some name =>
    .ok { user_id := r.user_id.getD genId, username := name, email := "",
          favorites := r.favorites, watchlist := r.watchlist,
          watched := r.watched, liked_genres := r.likedGenres }

/-- In-memory state of `UserManager`: the `users` dict (insertion-ordered,
keyed by `user_id`) and the current user. -/
structure ManagerState where
  users : List (Int × User)
  current_user : Option User
deriving DecidableEq, Repr

/-- Python dict assignment `d[k] = v`: overwrite in place or append. -/
def dictInsert (d : List (Int × User)) (k : Int) (v : User) : List (Int × User) :=
  if d.any (fun kv => kv.1 == k) then d.map (fun kv => if kv.1 == k then (k, v) else kv)
  else d ++ [(k, v)]

/-- Python dict lookup returning `None` when absent. -/
def dictLookup (d : List (Int × User)) (k : Int) : Option User :=
  (d.find? (fun kv => kv.1 == k)).map Prod.snd

/-- Contents of the JSON store as seen by `load_users`: the file may be
missing, may fail `json.load`, or decodes to a user list plus an
optional `current_user_id`. -/
inductive FileContent
| missing
| corruptJson
| validJson (users : List UserRecord) (current_user_id : Option Int)
deriving DecidableEq, Repr

/-- The record loop of `load_users`, run after `self.users = {}`:
on the first malformed record the raised `KeyError` leaves the partially
rebuilt dict behind (`Except.error` carries it). -/
def buildUsers (genIds : Nat → Int) :
    List UserRecord → Nat → List (Int × User) → Except (List (Int × User)) (List (Int × User))
| [], _, acc => .ok acc
| r :: rest, i, acc =>
  match fromDict (genIds i) r with
  | .error _ => .error acc
  | .ok u => buildUsers genIds rest (i + 1) (dictInsert acc u.user_id u)

/-- `UserManager.load_users` on explicit file contents.  Any exception in
the `try` block is caught and reported as `false`; `current_user` is
reassigned only when a truthy `current_user_id` resolves in the freshly
built dict (Python `0` is falsy). -/
def loadUsers (genIds : Nat → Int) (st : ManagerState) (file : FileContent) : Bool × ManagerState :=
  match file with
  | .missing => (false, st)
  | .corruptJson => (false, st)
  | .validJson recs cur =>
    match buildUsers genIds recs 0 [] with
    | .error partialUsers => (false, { st with users := partialUsers })
    | .ok us =>
      let newCurrent :=
        match cur with
        | some cid => if cid ≠ 0 ∧ (dictLookup us cid).isSome then dictLookup us cid else st.current_user
        | none => st.current_user
      (true, { users := us, current_user := newCurrent })

/-! ## Specification-side definitions.
These restate spec sentences (for refinement claims) and are compared
with the code-derived definitions above. -/

/-- Spec wording of C1, literally: genre matches first in catalog order;
then every catalog movie not already included whose comma-split, stripped
director list shares a name with the comma-split, stripped directors of
the user's favorite movies; finally watched movies are filtered out. -/
def specRecommendedClaimed (movies : List Movie) (u : User) : List Movie :=
  let genreMatches := movies.filter (fun m => u.liked_genres.any (fun g => m.genres.contains g))
  let favDirs := (u.favorites.filterMap (fun movie_id => getMovieBySystemName movies movie_id)).flatMap
    (fun m => (pySplit ',' m.director).map pyStrip)
  let dirMatches := movies.filter
    (fun m => !(sysMem m genreMatches) && ((pySplit ',' m.director).map pyStrip).any (fun d => favDirs.contains d))
  (genreMatches ++ dirMatches).filter (fun m => !(u.watched.contains m.system_name))

/-- Amended spec wording of C1: as `specRecommendedClaimed`, except that
only favorite movies with a nonempty director field contribute names,
and only catalog movies with a nonempty director field are eligible as
director matches. -/
def specRecommendedAmended (movies : List Movie) (u : User) : List Movie :=
  let genreMatches := movies.filter (fun m => u.liked_genres.any (fun g => m.genres.contains g))
  let favDirs := (u.favorites.filterMap (fun movie_id => getMovieBySystemName movies movie_id)).flatMap
    (fun m => if m.director ≠ "" then (pySplit ',' m.director).map pyStrip else [])
  let dirMatches := movies.filter
    (fun m => !(sysMem m genreMatches) && !(m.director == "") &&
      ((pySplit ',' m.director).map pyStrip).any (fun d => favDirs.contains d))
  (genreMatches ++ dirMatches).filter (fun m => !(u.watched.contains m.system_name))

/-- First occurrence of each element, in order of first appearance. -/
def dedupFirst : List String → List String
| [] => []
| g :: gs => g :: dedupFirst (gs.filter (fun x => x ≠ g))
termination_by l => l.length
decreasing_by
  exact Nat.lt_succ_of_le (List.length_filter_le _ _)

/-! ## Concrete fixtures used by witnesses and counterexamples. -/

/-- A sample catalog movie. -/
def movieInception : Movie :=
  { title := "Inception", year := 2010, minutes := 148, genres := ["Sci-Fi"],
    system_name := "inception", director := "Christopher Nolan", cast := "", synopsis := "" }

/-- A movie whose director field has a trailing comma, so its comma-split
director list contains the empty string. -/
def movieTrailingComma : Movie :=
  { title := "A", year := 2000, minutes := 90, genres := ["g"],
    system_name := "mA", director := "A,", cast := "", synopsis := "" }

/-- A movie with an empty (falsy) director field. -/
def movieNoDirector : Movie :=
  { title := "B", year := 2001, minutes := 95, genres := ["h"],
    system_name := "mB", director := "", cast := "", synopsis := "" }

/-- A user whose only preference signal is one favorite movie. -/
def userFavOnly : User :=
  { user_id := 1, username := "u", email := "", favorites := ["mA"],
    watchlist := [], watched := [], liked_genres := [] }

/-- A user who already watched a movie that is still on the watchlist. -/
def userWatchedAndListed : User :=
  { user_id := 2, username := "v", email := "", favorites := [],
    watchlist := ["a"], watched := ["a"], liked_genres := [] }

/-- A user with membership id `a` everywhere (for witnesses). -/
def userAllA : User :=
  { user_id := 3, username := "w", email := "", favorites := ["a"],
    watchlist := ["a"], watched := ["a"], liked_genres := ["a"] }

/-- A user with no liked genres and no favorites. -/
def userNoPrefs : User :=
  { user_id := 4, username := "n", email := "", favorites := [],
    watchlist := [], watched := ["x"], liked_genres := [] }

/-- A stored user for the persistence fixtures. -/
def userAlice : User :=
  { user_id := 1, username := "alice", email := "", favorites := [],
    watchlist := [], watched := [], liked_genres := [] }

/-- A manager state holding one user. -/
def stateWithAlice : ManagerState := { users := [(1, userAlice)], current_user := none }

/-- A JSON user object lacking the required `username` key. -/
def recNoUsername : UserRecord :=
  { username := none, user_id := none, favorites := [], watchlist := [],
    watched := [], likedGenres := [] }

/-- A movie listing the same genre twice. -/
def movieDupGenre : Movie :=
  { title := "D", year := 1999, minutes := 80, genres := ["a", "a"],
    system_name := "mD", director := "", cast := "", synopsis := "" }

/-! ## Claim C2. -/

/-- C2: the Controller's `search_movies` on an empty or whitespace-only
query returns the full movie list, while `Catalog.get_movies_by_title`
on the empty string returns the empty sequence — a deliberate policy
divergence between the two layers. -/
theorem c2_search_policy (movies : List Movie) (query : String) (h : pyStrip query = "") :
    searchMovies movies query = movies ∧ getMoviesByTitle movies "" = [] := by
  constructor
  · simp [searchMovies, h]
  · rfl

/-- Witness for C2 at a whitespace-only query and a singleton catalog. -/
theorem c2_witness :
    searchMovies [movieInception] "  " = [movieInception] ∧
    getMoviesByTitle [movieInception] "" = [] :=
  c2_search_policy [movieInception] "  " (by decide)

/-! ## Claim C4. -/

/-- Counterexample to C4 as stated: on a user who already watched `a`
while `a` is still on the watchlist, `mark_as_watched "a"` does NOT
attempt the watchlist removal — the watchlist keeps `a`, whereas the
claimed unconditional removal would have erased it. -/
theorem c4_counterexample :
    (userWatchedAndListed.mark_as_watched "a").2.watchlist ≠
      userWatchedAndListed.watchlist.erase "a" := by decide

/-- C4 (amended): `mark_as_watched(id)` adds `id` to `watched` and
returns true exactly when `id` was absent from `watched`, and only in
that case removes `id` from the watchlist (a no-op if absent); when `id`
was already watched it returns false and changes nothing, including the
watchlist; a second consecutive call returns false and leaves the state
of the first call unchanged. -/
theorem c4_mark_watched_amended (u : User) (x : String) :
    (x ∉ u.watched → u.mark_as_watched x =
      (true, { u with watched := u.watched ++ [x], watchlist := u.watchlist.erase x })) ∧
    (x ∈ u.watched → u.mark_as_watched x = (false, u)) ∧
    (u.mark_as_watched x).2.mark_as_watched x = (false, (u.mark_as_watched x).2) := by
  refine ⟨fun h => ?_, fun h => ?_, ?_⟩
  · simp only [User.mark_as_watched, if_neg h, User.remove_from_watchlist]
    by_cases hw : x ∈ u.watchlist
    · simp [hw]
    · simp [hw, List.erase_of_not_mem hw]
  · simp [User.mark_as_watched, h]
  · by_cases h : x ∈ u.watched
    · simp [User.mark_as_watched, h]
    · have h1 : (u.mark_as_watched x).2.watched = u.watched ++ [x] := by
        simp only [User.mark_as_watched, if_neg h, User.remove_from_watchlist]
        by_cases hw : x ∈ u.watchlist <;> simp [hw]
      set v := (u.mark_as_watched x).2 with hv
      have hx : x ∈ v.watched := by rw [h1]; simp
      simp [User.mark_as_watched, hx]

/-- Witness for C4 (amended) at concrete users covering both branches. -/
theorem c4_witness :
    userFavOnly.mark_as_watched "z" =
      (true, { userFavOnly with watched := ["z"], watchlist := [] }) ∧
    userWatchedAndListed.mark_as_watched "a" = (false, userWatchedAndListed) ∧
    (userWatchedAndListed.mark_as_watched "a").2.mark_as_watched "a" =
      (false, (userWatchedAndListed.mark_as_watched "a").2) :=
  ⟨by
    have h := (c4_mark_watched_amended userFavOnly "z").1 (by decide)
    simpa using h,
   (c4_mark_watched_amended userWatchedAndListed "a").2.1 (by decide),
   (c4_mark_watched_amended userWatchedAndListed "a").2.2⟩

/-! ## Claim C5. -/

/-- C5: a present user with no liked genres and no favorites gets an
empty recommendation list, for any catalog (the unreachable guard on
line 143 notwithstanding, the downstream computation yields `[]`). -/
theorem c5_empty_prefs (movies : List Movie) (u : User)
    (hg : u.liked_genres = []) (hf : u.favorites = []) :
    getRecommendedMovies movies (some u) = [] := by
  simp only [getRecommendedMovies, hg, hf, getMoviesFromMultipleGenres, favoriteDirectors]
  cases hw : u.watched.isEmpty <;> simp

/-- Witness for C5 on a two-movie catalog. -/
theorem c5_witness :
    getRecommendedMovies [movieTrailingComma, movieNoDirector] (some userNoPrefs) = [] :=
  c5_empty_prefs [movieTrailingComma, movieNoDirector] userNoPrefs (by decide) (by decide)

/-! ## Claim C8. -/

/-- C8: every membership-mutation pair on favorites, watchlist, watched
and liked genres is idempotent in the claimed sense: adding an
already-present id returns false and changes nothing; removing an absent
id returns false and changes nothing. -/
theorem c8_idempotent (u : User) (x : String) :
    (x ∈ u.favorites → u.add_favorite x = (false, u)) ∧
    (x ∉ u.favorites → u.remove_favorite x = (false, u)) ∧
    (x ∈ u.watchlist → u.add_to_watchlist x = (false, u)) ∧
    (x ∉ u.watchlist → u.remove_from_watchlist x = (false, u)) ∧
    (x ∈ u.watched → u.mark_as_watched x = (false, u)) ∧
    (x ∉ u.watched → u.unmark_as_watched x = (false, u)) ∧
    (x ∈ u.liked_genres → u.add_to_liked_genre x = (false, u)) ∧
    (x ∉ u.liked_genres → u.remove_a_liked_genre x = (false, u)) := by
  refine ⟨fun h => ?_, fun h => ?_, fun h => ?_, fun h => ?_,
          fun h => ?_, fun h => ?_, fun h => ?_, fun h => ?_⟩ <;>
    simp [User.add_favorite, User.remove_favorite, User.add_to_watchlist,
      User.remove_from_watchlist, User.mark_as_watched, User.unmark_as_watched,
      User.add_to_liked_genre, User.remove_a_liked_genre, h]

/-- Witness for C8: all eight idempotence branches at concrete inputs. -/
theorem c8_witness :
    userAllA.add_favorite "a" = (false, userAllA) ∧
    userAllA.remove_favorite "b" = (false, userAllA) ∧
    userAllA.add_to_watchlist "a" = (false, userAllA) ∧
    userAllA.remove_from_watchlist "b" = (false, userAllA) ∧
    userAllA.mark_as_watched "a" = (false, userAllA) ∧
    userAllA.unmark_as_watched "b" = (false, userAllA) ∧
    userAllA.add_to_liked_genre "a" = (false, userAllA) ∧
    userAllA.remove_a_liked_genre "b" = (false, userAllA) :=
  ⟨(c8_idempotent userAllA "a").1 (by decide),
   (c8_idempotent userAllA "b").2.1 (by decide),
   (c8_idempotent userAllA "a").2.2.1 (by decide),
   (c8_idempotent userAllA "b").2.2.2.1 (by decide),
   (c8_idempotent userAllA "a").2.2.2.2.1 (by decide),
   (c8_idempotent userAllA "b").2.2.2.2.2.1 (by decide),
   (c8_idempotent userAllA "a").2.2.2.2.2.2.1 (by decide),
   (c8_idempotent userAllA "b").2.2.2.2.2.2.2 (by decide)⟩

/-! ## Claim C9. -/

/-- C9: `from_dict (to_dict u)` succeeds and reproduces `user_id`,
`username`, and (as sets — in fact as lists) favorites, watchlist,
watched and liked genres. -/
theorem c9_roundtrip (u : User) (genId : Int) :
    ∃ u2, fromDict genId (toDict u) = .ok u2 ∧
      u2.user_id = u.user_id ∧ u2.username = u.username ∧
      (∀ x, x ∈ u2.favorites ↔ x ∈ u.favorites) ∧
      (∀ x, x ∈ u2.watchlist ↔ x ∈ u.watchlist) ∧
      (∀ x, x ∈ u2.watched ↔ x ∈ u.watched) ∧
      (∀ x, x ∈ u2.liked_genres ↔ x ∈ u.liked_genres) :=
  ⟨_, rfl, rfl, rfl, fun _ => Iff.rfl, fun _ => Iff.rfl, fun _ => Iff.rfl, fun _ => Iff.rfl⟩

/-! ## Claim C10. -/

/-- C10: every Controller per-user projection returns the empty list on
an absent (`None`) user. -/
theorem c10_none_user (movies : List Movie) :
    getRecommendedMovies movies none = [] ∧
    getFavoriteMovies movies none = [] ∧
    getWathclistMovie movies none = [] ∧
    getWatchedMovie movies none = [] :=
  ⟨rfl, rfl, rfl, rfl⟩

/-! ## Claim C6. -/

/-- Counterexample to C6 as stated: on a file whose JSON parses but whose
first user record lacks `username`, `load_users` reports failure without
raising, yet the in-memory users mapping is wiped (the source resets
`self.users` before decoding the records). -/
theorem c6_counterexample :
    (loadUsers (fun _ => 0) stateWithAlice (.validJson [recNoUsername] none)).2.users = [] ∧
    stateWithAlice.users ≠ [] :=
  ⟨rfl, by decide⟩

/-- A well-formed JSON user object for the persistence fixtures. -/
def recBob : UserRecord :=
  { username := some "bob", user_id := some 7, favorites := ["f"], watchlist := [],
    watched := [], likedGenres := [] }

/-- The user `recBob` decodes to. -/
def userBob : User :=
  { user_id := 7, username := "bob", email := "", favorites := ["f"],
    watchlist := [], watched := [], liked_genres := [] }

/-- Running the record loop into a malformed record: whatever dictionary
the preceding records built is exactly what the raised `KeyError` leaves
behind, at any position of the record list. -/
theorem buildUsers_append_malformed (genIds : Nat → Int) :
    ∀ (pre : List UserRecord) (r : UserRecord) (post : List UserRecord)
      (i : Nat) (acc us : List (Int × User)),
    buildUsers genIds pre i acc = Except.ok us → r.username = none →
    buildUsers genIds (pre ++ r :: post) i acc = Except.error us := by
  intro pre
  induction pre with
  | nil =>
    intro r post i acc us hok hr
    have hacc : acc = us := by
      rw [buildUsers] at hok
      exact Except.ok.inj hok
    subst hacc
    rw [List.nil_append]
    simp [buildUsers, fromDict, hr]
  | cons q pre' ih =>
    intro r post i acc us hok hr
    simp only [List.cons_append, buildUsers] at hok ⊢
    cases hq : fromDict (genIds i) q with
    | error e => rw [hq] at hok; exact absurd hok (by simp)
    | ok u =>
      rw [hq] at hok
      exact ih r post (i + 1) (dictInsert acc u.user_id u) us hok hr

/-- C6 (amended): a missing file or one whose JSON fails to parse is
reported as failure with the state fully unchanged; when the JSON parses
but a record is malformed, failure is still reported without raising and
`current_user` keeps its old value, while the users mapping is replaced
by the dictionary built from the records decoded before the malformed
one — at any position, hence empty when it comes first. -/
theorem c6_load_users_amended (genIds : Nat → Int) (st : ManagerState) :
    loadUsers genIds st .missing = (false, st) ∧
    loadUsers genIds st .corruptJson = (false, st) ∧
    (∀ recs cur, (loadUsers genIds st (.validJson recs cur)).1 = false →
      (loadUsers genIds st (.validJson recs cur)).2.current_user = st.current_user) ∧
    (∀ cur pre r post us, buildUsers genIds pre 0 [] = Except.ok us → r.username = none →
      loadUsers genIds st (.validJson (pre ++ r :: post) cur) = (false, { st with users := us })) := by
  refine ⟨rfl, rfl, fun recs cur h => ?_, fun cur pre r post us hok hr => ?_⟩
  · simp only [loadUsers] at h ⊢
    cases hb : buildUsers genIds recs 0 [] with
    | error p => rfl
    | ok us => rw [hb] at h; simp at h
  · simp only [loadUsers]
    rw [buildUsers_append_malformed genIds pre r post 0 [] us hok hr]

/-- Witness for C6 (amended) at a concrete state and record lists, with
the malformed record both first and in the middle of the store. -/
theorem c6_witness :
    loadUsers (fun _ => 0) stateWithAlice .missing = (false, stateWithAlice) ∧
    loadUsers (fun _ => 0) stateWithAlice .corruptJson = (false, stateWithAlice) ∧
    (loadUsers (fun _ => 0) stateWithAlice (.validJson [recNoUsername] none)).2.current_user =
      stateWithAlice.current_user ∧
    loadUsers (fun _ => 0) stateWithAlice (.validJson [recBob, recNoUsername, recBob] none) =
      (false, { stateWithAlice with users := [(7, userBob)] }) ∧
    loadUsers (fun _ => 0) stateWithAlice (.validJson [recNoUsername] none) =
      (false, { stateWithAlice with users := [] }) :=
  ⟨(c6_load_users_amended (fun _ => 0) stateWithAlice).1,
   (c6_load_users_amended (fun _ => 0) stateWithAlice).2.1,
   (c6_load_users_amended (fun _ => 0) stateWithAlice).2.2.1 [recNoUsername] none rfl,
   (c6_load_users_amended (fun _ => 0) stateWithAlice).2.2.2 none [recBob] recNoUsername
     [recBob] [(7, userBob)] rfl rfl,
   (c6_load_users_amended (fun _ => 0) stateWithAlice).2.2.2 none [] recNoUsername [] [] rfl rfl⟩

/-! ## Claim C3. -/

/-- The line loop can only raise the `ValueError`, never the not-found
error, once the file exists. -/
theorem loadLines_ne_fileNotFound (ls : List String) :
    loadLines ls ≠ Except.error LoadError.fileNotFound := by
  induction ls with
  | nil => simp [loadLines]
  | cons l rest ih =>
    simp only [loadLines]
    cases hp : processLine l with
    | skip => exact ih
    | err => simp
    | good m =>
      cases hr : loadLines rest with
      | ok ms => simp
      | error e => rw [hr] at ih; simpa using ih

/-- Counterexample to C3 as stated: an existing file with a single line
of five fields whose minutes field is not an integer makes the load
raise `ValueError` — the line is not skipped and the load does not
finish. -/
theorem c3_counterexample :
    loadFromCsv (some ["a:1:x:g:s"]) = Except.error LoadError.valueError := rfl

/-- C3 (amended): the not-found error is raised iff the file is missing;
blank lines and lines with fewer than five `:`-fields are skipped and
loading continues; but a line with at least five fields whose minutes
(or nonempty year) field fails integer conversion aborts the whole load
with a `ValueError`. -/
theorem c3_load_amended (lines : List String) (l : String) (rest : List String) :
    loadFromCsv none = Except.error LoadError.fileNotFound ∧
    loadFromCsv (some lines) ≠ Except.error LoadError.fileNotFound ∧
    (processLine l = LineResult.skip → loadLines (l :: rest) = loadLines rest) ∧
    (pyStrip l = "" → processLine l = LineResult.skip) ∧
    (pyStrip l ≠ "" → (pySplit ':' (pyStrip l)).length < 5 → processLine l = LineResult.skip) ∧
    (processLine l = LineResult.err → loadLines (l :: rest) = Except.error LoadError.valueError) := by
  refine ⟨rfl, ?_, fun h => by simp [loadLines, h], fun h => ?_, fun h1 h2 => ?_,
    fun h => by simp [loadLines, h]⟩
  · simp only [loadFromCsv]
    cases lines with
    | nil => exact loadLines_ne_fileNotFound []
    | cons first restl =>
      show loadLines
        (if "title:".toList.isPrefixOf (pyStrip first).toList = true then restl
         else first :: restl) ≠ Except.error LoadError.fileNotFound
      by_cases hh : "title:".toList.isPrefixOf (pyStrip first).toList = true
      · rw [if_pos hh]; exact loadLines_ne_fileNotFound restl
      · rw [if_neg hh]; exact loadLines_ne_fileNotFound (first :: restl)
  · simp [processLine, h]
  · have hb : (pyStrip l == "") = false := beq_eq_false_iff_ne.mpr h1
    simp [processLine, hb, List.length_map, h2]

/-- Witness for C3 (amended): blank and short lines at concrete inputs,
plus the concrete aborting line. -/
theorem c3_witness :
    loadFromCsv none = Except.error LoadError.fileNotFound ∧
    loadFromCsv (some ["x:1:2:g:s"]) ≠ Except.error LoadError.fileNotFound ∧
    loadLines ["  ", "a:b"] = loadLines ["a:b"] ∧
    processLine "  " = LineResult.skip ∧
    processLine "a:b" = LineResult.skip ∧
    loadLines ["a:1:x:g:s"] = Except.error LoadError.valueError :=
  ⟨(c3_load_amended ["x:1:2:g:s"] "  " ["a:b"]).1,
   (c3_load_amended ["x:1:2:g:s"] "  " ["a:b"]).2.1,
   (c3_load_amended ["x:1:2:g:s"] "  " ["a:b"]).2.2.1 (by decide),
   (c3_load_amended ["x:1:2:g:s"] "  " ["a:b"]).2.2.2.1 (by decide),
   (c3_load_amended ["x:1:2:g:s"] "a:b" ["a:b"]).2.2.2.2.1 (by decide) (by decide),
   (c3_load_amended ["a:1:x:g:s"] "a:1:x:g:s" []).2.2.2.2.2 (by decide)⟩

/-! ## Claim C1. -/

/-- The favorite-director fold in filterMap-flatMap form. -/
theorem favDirs_foldl (movies : List Movie) (favs : List String) :
    ∀ acc : List String,
    favs.foldl (fun acc movie_id =>
      match getMovieBySystemName movies movie_id with
      | some m => if m.director ≠ "" then acc ++ (pySplit ',' m.director).map pyStrip else acc
      | none => acc) acc
    = acc ++ (favs.filterMap (fun movie_id => getMovieBySystemName movies movie_id)).flatMap
        (fun m => if m.director ≠ "" then (pySplit ',' m.director).map pyStrip else []) := by
  induction favs with
  | nil => intro acc; simp
  | cons f fs ih =>
    intro acc
    simp only [List.foldl_cons, List.filterMap_cons]
    cases h : getMovieBySystemName movies f with
    | none => simp only [h]; exact ih acc
    | some m =>
      simp only [h, List.flatMap_cons]
      by_cases hd : m.director = ""
      · rw [if_neg (not_not_intro hd), if_neg (not_not_intro hd), List.nil_append]
        exact ih acc
      · rw [if_pos hd, if_pos hd, ih (acc ++ (pySplit ',' m.director).map pyStrip),
          List.append_assoc]

/-- `_get_favorite_directors` agrees with its specification form. -/
theorem favoriteDirectors_eq (movies : List Movie) (favs : List String) :
    favoriteDirectors movies favs
    = (favs.filterMap (fun movie_id => getMovieBySystemName movies movie_id)).flatMap
        (fun m => if m.director ≠ "" then (pySplit ',' m.director).map pyStrip else []) := by
  cases favs with
  | nil => rfl
  | cons f fs =>
    simp only [favoriteDirectors, List.isEmpty_cons]
    simpa using favDirs_foldl movies (f :: fs) []

/-- `get_movies_from_multiple_genres` in pure filter form: the empty
genre-list guard coincides with the filter because no movie matches any
of zero genres. -/
theorem getMoviesFromMultipleGenres_eq (movies : List Movie) (gl : List String) :
    getMoviesFromMultipleGenres movies gl
    = movies.filter (fun m => gl.any (fun g => m.genres.contains g)) := by
  cases gl with
  | nil => simp [getMoviesFromMultipleGenres]
  | cons g gs => simp [getMoviesFromMultipleGenres]

/-- The director-matching pass, which appends while testing membership in
the growing accumulator, equals a one-shot filter against the initial
accumulator when the catalog's system names are distinct. -/
theorem dirFold_eq (favDirs : List String) :
    ∀ (movies recs : List Movie), (movies.map Movie.system_name).Nodup →
    movies.foldl (fun acc m => if dirCond favDirs acc m then acc ++ [m] else acc) recs
    = recs ++ movies.filter (fun m => dirCond favDirs recs m) := by
  intro movies
  induction movies with
  | nil => intro recs _; simp
  | cons m rest ih =>
    intro recs hnd
    rw [List.map_cons, List.nodup_cons] at hnd
    obtain ⟨hm, hrest⟩ := hnd
    simp only [List.foldl_cons]
    have hcongr : rest.filter (fun x => dirCond favDirs (recs ++ [m]) x)
        = rest.filter (fun x => dirCond favDirs recs x) := by
      apply List.filter_congr
      intro x hx
      have hxne : (m.system_name == x.system_name) = false := by
        rw [beq_eq_false_iff_ne]
        intro he
        have hmem := List.mem_map_of_mem Movie.system_name hx
        rw [← he] at hmem
        exact hm hmem
      simp [dirCond, sysMem, List.any_append, hxne]
    by_cases hc : dirCond favDirs recs m = true
    · rw [if_pos hc, ih (recs ++ [m]) hrest, hcongr]
      simp [List.filter_cons, hc, List.append_assoc]
    · have hc' : dirCond favDirs recs m = false := by simpa using hc
      rw [if_neg hc, ih recs hrest]
      simp [List.filter_cons, hc']

/-- The final watched-exclusion stage: the emptiness guard coincides with
the unconditional filter. -/
theorem watchedStage (w : List String) (l : List Movie) :
    (if w.isEmpty then l else l.filter (fun m => !(w.contains m.system_name)))
    = l.filter (fun m => !(w.contains m.system_name)) := by
  cases w with
  | nil => simp
  | cons a as => rfl

/-- Counterexample to C1 as stated: with a favorite whose director field
is `A,` (so its comma-split set contains the empty string) and a catalog
movie with an empty director field, the literal claim adds the latter as
a director match, but the code's truthiness guard on `movie.director`
skips it. -/
theorem c1_counterexample :
    getRecommendedMovies [movieTrailingComma, movieNoDirector] (some userFavOnly) ≠
      specRecommendedClaimed [movieTrailingComma, movieNoDirector] userFavOnly := by decide

/-- C1 (amended): for a catalog with distinct system names,
`get_recommended_movies` returns exactly the genre matches in catalog
order, then — appended in catalog order — every not-yet-included catalog
movie with a nonempty director field sharing a comma-split stripped
director name with the favorite-director set (itself drawn only from
favorite movies with a nonempty director field), with all watched movies
finally filtered out without re-sorting. -/
theorem c1_recommended_amended (movies : List Movie) (u : User)
    (hnd : (movies.map Movie.system_name).Nodup)
    (hne : u.liked_genres ≠ [] ∨ u.favorites ≠ []) :
    getRecommendedMovies movies (some u) = specRecommendedAmended movies u := by
  simp only [getRecommendedMovies, specRecommendedAmended]
  rw [favoriteDirectors_eq, getMoviesFromMultipleGenres_eq]
  set gm := movies.filter (fun m => u.liked_genres.any (fun g => m.genres.contains g)) with hgm
  set fd := (u.favorites.filterMap (fun movie_id => getMovieBySystemName movies movie_id)).flatMap
      (fun m => if m.director ≠ "" then (pySplit ',' m.director).map pyStrip else []) with hfd
  by_cases hempty : fd.isEmpty = true
  · have hfde : fd = [] := by
      cases hx : fd with
      | nil => rfl
      | cons a l => rw [hx] at hempty; simp at hempty
    rw [if_pos hempty]
    have hdm : movies.filter (fun m => !(sysMem m gm) && !(m.director == "") &&
        ((pySplit ',' m.director).map pyStrip).any (fun d => fd.contains d)) = [] := by
      rw [hfde]
      apply List.filter_eq_nil_iff.mpr
      intro a _
      simp
    rw [hdm, List.append_nil]
    exact watchedStage u.watched gm
  · rw [if_neg hempty, dirFold_eq fd movies gm hnd]
    exact watchedStage u.watched _

/-- Witness for C1 (amended) on a concrete catalog and user. -/
theorem c1_witness :
    getRecommendedMovies [movieTrailingComma, movieNoDirector] (some userFavOnly) =
      specRecommendedAmended [movieTrailingComma, movieNoDirector] userFavOnly :=
  c1_recommended_amended [movieTrailingComma, movieNoDirector] userFavOnly
    (by decide) (Or.inr (by decide))

/-! ## Claim C7. -/

theorem contains_eq_decide_mem (l : List String) (a : String) :
    l.contains a = decide (a ∈ l) :=
  List.elem_eq_mem a l

theorem mem_dedupFirst (a : String) (l : List String) : a ∈ dedupFirst l ↔ a ∈ l := by
  induction l using dedupFirst.induct with
  | case1 => simp [dedupFirst]
  | case2 g gs ih =>
    rw [dedupFirst]
    simp only [List.mem_cons, ih, List.mem_filter, decide_eq_true_eq]
    constructor
    · rintro (rfl | ⟨hmem, _⟩)
      · exact Or.inl rfl
      · exact Or.inr hmem
    · rintro (rfl | hmem)
      · exact Or.inl rfl
      · by_cases hag : a = g
        · exact Or.inl hag
        · exact Or.inr ⟨hmem, hag⟩

theorem dedupFirst_nodup (l : List String) : (dedupFirst l).Nodup := by
  induction l using dedupFirst.induct with
  | case1 => simp [dedupFirst]
  | case2 g gs ih =>
    rw [dedupFirst, List.nodup_cons]
    refine ⟨fun hmem => ?_, ih⟩
    rw [mem_dedupFirst] at hmem
    simp at hmem

theorem dedupFirst_of_nodup (l : List String) (h : l.Nodup) : dedupFirst l = l := by
  induction l using dedupFirst.induct with
  | case1 => simp [dedupFirst]
  | case2 g gs ih =>
    rw [List.nodup_cons] at h
    have hfe : gs.filter (fun x => x ≠ g) = gs := by
      apply List.filter_eq_self.mpr
      intro a ha
      simp only [decide_eq_true_eq]
      intro he
      exact h.1 (he ▸ ha)
    rw [dedupFirst]
    rw [hfe] at ih ⊢
    rw [ih h.2]

theorem dedupFirst_append (xs ys : List String) :
    dedupFirst (xs ++ ys) = dedupFirst xs ++ dedupFirst (ys.filter (fun y => y ∉ xs)) := by
  induction xs using dedupFirst.induct generalizing ys with
  | case1 => simp [dedupFirst]
  | case2 g gs ih =>
    rw [List.cons_append, dedupFirst, dedupFirst, List.filter_append,
      ih (ys.filter (fun x => x ≠ g)), List.cons_append]
    have hfil : (ys.filter (fun x => x ≠ g)).filter (fun y => y ∉ gs.filter (fun x => x ≠ g))
        = ys.filter (fun y => y ∉ g :: gs) := by
      rw [List.filter_filter]
      apply List.filter_congr
      intro a ha
      by_cases hag : a = g
      · subst hag
        simp
      · simp only [decide_eq_true_eq, List.mem_filter, Bool.and_eq_true, decide_not,
          List.mem_cons]
        by_cases hmem : a ∈ gs <;> simp [hmem, hag]
    rw [hfil]

theorem addToBucket_canonical (g0 : String) (m : Movie) (f : String → List Movie)
    (hfresh : sysMem m (f g0) = false) :
    ∀ gs : List String, gs.Nodup → (g0 ∉ gs → f g0 = []) →
    addToBucket (gs.map (fun g => (g, f g))) g0 m
    = (if g0 ∈ gs then gs else gs ++ [g0]).map
        (fun g => (g, if g = g0 then f g0 ++ [m] else f g)) := by
  intro gs
  induction gs with
  | nil =>
    intro _ hnew
    rw [if_neg (List.not_mem_nil g0)]
    simp only [List.map_nil, List.nil_append, List.map_cons, List.map_nil, if_pos rfl,
      hnew (List.not_mem_nil g0), addToBucket]
    rfl
  | cons g gs' ih =>
    intro hnd hnew
    rw [List.nodup_cons] at hnd
    obtain ⟨hgmem, hnd'⟩ := hnd
    simp only [List.map_cons, addToBucket]
    by_cases hg : g = g0
    · subst hg
      rw [if_pos rfl, if_pos (List.mem_cons_self g gs')]
      simp only [List.map_cons, if_pos rfl]
      have hupd : updBucket (f g) m = f g ++ [m] := by
        rw [updBucket, hfresh]
        simp
      rw [hupd]
      congr 1
      apply List.map_congr_left
      intro x hx
      rw [if_neg (fun (he : x = g) => hgmem (he ▸ hx))]
    · rw [if_neg hg]
      have hnew' : g0 ∉ gs' → f g0 = [] := fun h' => hnew (fun hmem => by
        rcases List.mem_cons.mp hmem with he | hm
        · exact hg he.symm
        · exact h' hm)
      rw [ih hnd' hnew']
      by_cases hmem : g0 ∈ gs'
      · rw [if_pos hmem, if_pos (List.mem_cons_of_mem g hmem)]
        simp only [List.map_cons]
        rw [if_neg hg]
      · have hnotc : g0 ∉ g :: gs' := fun hc => by
          rcases List.mem_cons.mp hc with he | hm
          · exact hg he.symm
          · exact hmem hm
        rw [if_neg hmem, if_neg hnotc]
        simp only [List.cons_append, List.map_cons]
        rw [if_neg hg]

theorem groupFold_canonical (m : Movie) :
    ∀ (p : List String) (gs : List String) (f : String → List Movie),
    p.Nodup → gs.Nodup →
    (∀ g ∈ p, sysMem m (f g) = false) →
    (∀ g, g ∉ gs → g ∈ p → f g = []) →
    p.foldl (fun a g => addToBucket a g m) (gs.map (fun g => (g, f g)))
    = (gs ++ p.filter (fun g => g ∉ gs)).map
        (fun g => (g, if g ∈ p then f g ++ [m] else f g)) := by
  intro p
  induction p with
  | nil =>
    intro gs f _ _ _ _
    simp only [List.foldl_nil, List.filter_nil, List.append_nil]
    apply List.map_congr_left
    intro g _
    rw [if_neg (List.not_mem_nil g)]
  | cons g0 p' ih =>
    intro gs f hp hgs hfresh hempty
    rw [List.nodup_cons] at hp
    obtain ⟨hg0p, hp'⟩ := hp
    simp only [List.foldl_cons]
    rw [addToBucket_canonical g0 m f (hfresh g0 (List.mem_cons_self g0 p')) gs hgs
      (fun hn => hempty g0 hn (List.mem_cons_self g0 p'))]
    have hgs1 : (if g0 ∈ gs then gs else gs ++ [g0]).Nodup := by
      by_cases hmem : g0 ∈ gs
      · rw [if_pos hmem]; exact hgs
      · rw [if_neg hmem]
        rw [List.nodup_append]
        exact ⟨hgs, List.nodup_singleton g0, fun a ha hb => by
          rw [List.mem_singleton] at hb
          exact hmem (hb ▸ ha)⟩
    have hg0gs1 : g0 ∈ (if g0 ∈ gs then gs else gs ++ [g0]) := by
      by_cases hmem : g0 ∈ gs
      · rw [if_pos hmem]; exact hmem
      · rw [if_neg hmem]
        exact List.mem_append_right gs (List.mem_singleton.mpr rfl)
    have hsub : ∀ g, g ∈ gs → g ∈ (if g0 ∈ gs then gs else gs ++ [g0]) := by
      intro g hg
      by_cases hmem : g0 ∈ gs
      · rw [if_pos hmem]; exact hg
      · rw [if_neg hmem]; exact List.mem_append_left [g0] hg
    have hfresh1 : ∀ g ∈ p', sysMem m ((fun g => if g = g0 then f g0 ++ [m] else f g) g) = false := by
      intro g hg
      have hne : g ≠ g0 := fun he => hg0p (he ▸ hg)
      simp only [if_neg hne]
      exact hfresh g (List.mem_cons_of_mem g0 hg)
    have hempty1 : ∀ g, g ∉ (if g0 ∈ gs then gs else gs ++ [g0]) → g ∈ p' →
        (fun g => if g = g0 then f g0 ++ [m] else f g) g = [] := by
      intro g hgn hg
      have hne : g ≠ g0 := fun he => hgn (he ▸ hg0gs1)
      simp only [if_neg hne]
      exact hempty g (fun hc => hgn (hsub g hc)) (List.mem_cons_of_mem g0 hg)
    rw [ih (if g0 ∈ gs then gs else gs ++ [g0])
      (fun g => if g = g0 then f g0 ++ [m] else f g) hp' hgs1 hfresh1 hempty1]
    have hkeys : (if g0 ∈ gs then gs else gs ++ [g0]) ++
        p'.filter (fun g => g ∉ (if g0 ∈ gs then gs else gs ++ [g0]))
        = gs ++ (g0 :: p').filter (fun g => g ∉ gs) := by
      by_cases hmem : g0 ∈ gs
      · rw [if_pos hmem, List.filter_cons, if_neg (by simpa using hmem)]
      · rw [if_neg hmem, List.filter_cons, if_pos (by simpa using hmem)]
        have hfc : p'.filter (fun g => g ∉ gs ++ [g0]) = p'.filter (fun g => g ∉ gs) := by
          apply List.filter_congr
          intro a ha
          have hne : a ≠ g0 := fun he => hg0p (he ▸ ha)
          simp [List.mem_append, hne]
        rw [hfc, List.append_assoc, List.singleton_append]
    rw [hkeys]
    apply List.map_congr_left
    intro g _
    by_cases hgg : g = g0
    · subst hgg
      rw [if_neg (fun hc => hg0p hc), if_pos (List.mem_cons_self g p'), if_pos rfl]
    · rw [if_neg hgg]
      have hiff : (g ∈ g0 :: p') ↔ (g ∈ p') := by
        rw [List.mem_cons]
        exact ⟨fun h => h.elim (fun he => absurd he hgg) id, Or.inr⟩
      by_cases hgp : g ∈ p'
      · rw [if_pos hgp, if_pos (hiff.mpr hgp)]
      · rw [if_neg hgp, if_neg (fun hc => hgp (hiff.mp hc))]

theorem groupByGenre_canonical (ms : List Movie)
    (h1 : (ms.map Movie.system_name).Nodup) (h2 : ∀ x ∈ ms, x.genres.Nodup) :
    getMoviesGroupedByGenre ms
    = (dedupFirst (ms.flatMap Movie.genres)).map
        (fun g => (g, ms.filter (fun x => x.genres.contains g))) := by
  induction ms using List.reverseRecOn with
  | nil => simp [getMoviesGroupedByGenre, dedupFirst]
  | append_singleton ms m ih =>
    rw [List.map_append, List.nodup_append] at h1
    obtain ⟨h1a, _, h1c⟩ := h1
    have hfreshm : m.system_name ∉ ms.map Movie.system_name := by
      intro hc
      exact h1c hc (by simp)
    have h2a : ∀ x ∈ ms, x.genres.Nodup := fun x hx => h2 x (List.mem_append_left _ hx)
    have h2m : m.genres.Nodup := h2 m (List.mem_append_right _ (List.mem_singleton.mpr rfl))
    have hsplit : getMoviesGroupedByGenre (ms ++ [m])
        = groupStep (getMoviesGroupedByGenre ms) m := by
      simp [getMoviesGroupedByGenre, List.foldl_append]
    rw [hsplit, ih h1a h2a, groupStep]
    have hfr : ∀ g ∈ m.genres,
        sysMem m (ms.filter (fun x => x.genres.contains g)) = false := by
      intro g _
      apply List.any_eq_false.mpr
      intro x hx
      have hxms : x ∈ ms := (List.mem_filter.mp hx).1
      intro hbeq
      rw [beq_iff_eq] at hbeq
      exact hfreshm (hbeq ▸ List.mem_map_of_mem Movie.system_name hxms)
    have hem : ∀ g, g ∉ dedupFirst (ms.flatMap Movie.genres) → g ∈ m.genres →
        ms.filter (fun x => x.genres.contains g) = [] := by
      intro g hgK _
      rw [mem_dedupFirst] at hgK
      apply List.filter_eq_nil_iff.mpr
      intro x hx hc
      rw [contains_eq_decide_mem, decide_eq_true_eq] at hc
      exact hgK (List.mem_flatMap.mpr ⟨x, hx, hc⟩)
    rw [groupFold_canonical m m.genres (dedupFirst (ms.flatMap Movie.genres))
      (fun g => ms.filter (fun x => x.genres.contains g)) h2m (dedupFirst_nodup _) hfr hem]
    have hkeys : dedupFirst ((ms ++ [m]).flatMap Movie.genres)
        = dedupFirst (ms.flatMap Movie.genres)
          ++ m.genres.filter (fun g => g ∉ dedupFirst (ms.flatMap Movie.genres)) := by
      rw [List.flatMap_append, dedupFirst_append]
      congr 1
      have hsing : ([m].flatMap Movie.genres) = m.genres := by simp
      rw [hsing]
      have hpred : m.genres.filter (fun y => y ∉ ms.flatMap Movie.genres)
          = m.genres.filter (fun g => g ∉ dedupFirst (ms.flatMap Movie.genres)) := by
        apply List.filter_congr
        intro a _
        simp [mem_dedupFirst]
      rw [hpred, dedupFirst_of_nodup _ (List.Nodup.filter _ h2m)]
    rw [hkeys]
    apply List.map_congr_left
    intro g _
    rw [List.filter_append]
    by_cases hgm : g ∈ m.genres
    · rw [if_pos hgm]
      have hcont : m.genres.contains g = true := by
        rw [contains_eq_decide_mem, decide_eq_true_eq]
        exact hgm
      have hone : [m].filter (fun x => x.genres.contains g) = [m] := by
        rw [List.filter_cons, if_pos hcont]
        rfl
      rw [hone]
    · rw [if_neg hgm]
      have hcont : ¬ m.genres.contains g = true := by
        rw [contains_eq_decide_mem, decide_eq_true_eq]
        exact hgm
      have hzero : [m].filter (fun x => x.genres.contains g) = [] := by
        rw [List.filter_cons, if_neg hcont]
        rfl
      rw [hzero, List.append_nil]

theorem sum_map_ite_one (p : String → Bool) (l : List String) :
    (l.map (fun a => if p a then 1 else 0)).sum = (l.filter p).length := by
  induction l with
  | nil => rfl
  | cons a l ih =>
    simp only [List.map_cons, List.sum_cons, List.filter_cons]
    by_cases h : p a = true
    · rw [if_pos h, if_pos h, ih, List.length_cons]
      omega
    · rw [if_neg h, if_neg h, ih]
      omega

theorem length_filter_mem_comm (as bs : List String) (ha : as.Nodup) (hb : bs.Nodup) :
    (as.filter (fun a => a ∈ bs)).length = (bs.filter (fun b => b ∈ as)).length := by
  rw [← List.toFinset_card_of_nodup (List.Nodup.filter _ ha),
    ← List.toFinset_card_of_nodup (List.Nodup.filter _ hb),
    List.toFinset_filter, List.toFinset_filter]
  have hset1 : Finset.filter (fun x => decide (x ∈ bs) = true) as.toFinset
      = as.toFinset ∩ bs.toFinset := by
    ext a
    simp [List.mem_toFinset]
  have hset2 : Finset.filter (fun x => decide (x ∈ as) = true) bs.toFinset
      = bs.toFinset ∩ as.toFinset := by
    ext a
    simp [List.mem_toFinset]
  rw [hset1, hset2, Finset.inter_comm]

theorem sum_filter_exchange (gs : List String) (hgs : gs.Nodup) :
    ∀ ms : List Movie, (∀ x ∈ ms, x.genres.Nodup) →
    (∀ x ∈ ms, ∀ g ∈ x.genres, g ∈ gs) →
    (gs.map (fun g => (ms.filter (fun x => x.genres.contains g)).length)).sum
    = (ms.map (fun x => x.genres.length)).sum := by
  intro ms
  induction ms with
  | nil =>
    intro _ _
    simp
  | cons m ms' ih =>
    intro h2 hsub
    have e1 : ∀ g : String, ((m :: ms').filter (fun x => x.genres.contains g)).length
        = (if m.genres.contains g then 1 else 0)
          + (ms'.filter (fun x => x.genres.contains g)).length := by
      intro g
      rw [List.filter_cons]
      by_cases h : m.genres.contains g = true
      · rw [if_pos h, if_pos h, List.length_cons]
        omega
      · rw [if_neg h, if_neg h]
        omega
    calc (gs.map (fun g => ((m :: ms').filter (fun x => x.genres.contains g)).length)).sum
        = (gs.map (fun g => (if m.genres.contains g then 1 else 0)
            + (ms'.filter (fun x => x.genres.contains g)).length)).sum := by
          exact congrArg List.sum (List.map_congr_left (fun g _ => e1 g))
      _ = (gs.map (fun g => if m.genres.contains g then 1 else 0)).sum
          + (gs.map (fun g => (ms'.filter (fun x => x.genres.contains g)).length)).sum :=
          List.sum_map_add
      _ = m.genres.length + (ms'.map (fun x => x.genres.length)).sum := by
          rw [ih (fun x hx => h2 x (List.mem_cons_of_mem m hx))
            (fun x hx => hsub x (List.mem_cons_of_mem m hx))]
          congr 1
          rw [sum_map_ite_one]
          have hmg : m.genres.Nodup := h2 m (List.mem_cons_self m ms')
          have hconv : gs.filter (fun g => m.genres.contains g)
              = gs.filter (fun g => g ∈ m.genres) := by
            apply List.filter_congr
            intro a _
            exact contains_eq_decide_mem m.genres a
          rw [hconv, length_filter_mem_comm gs m.genres hgs hmg]
          have hall : m.genres.filter (fun b => b ∈ gs) = m.genres := by
            apply List.filter_eq_self.mpr
            intro a ha
            simp only [decide_eq_true_eq]
            exact hsub m (List.mem_cons_self m ms') a ha
          rw [hall]
      _ = ((m :: ms').map (fun x => x.genres.length)).sum := by
          simp [List.map_cons, List.sum_cons]

/-- Counterexample to C7 as stated: a movie listing the same genre twice
is appended only once to that genre's bucket, so the total number of
(movie, genre) pairs (1) is strictly less than the sum of
`len(movie.genres)` (2). -/
theorem c7_counterexample :
    totalPairs (getMoviesGroupedByGenre [movieDupGenre]) ≠
      (([movieDupGenre] : List Movie).map (fun x => x.genres.length)).sum := by decide

/-- C7 (amended): provided the movies have pairwise distinct system
names and no movie lists the same genre twice, the grouping is exactly
the ordered association list whose keys are the genres in first-seen
order and whose bucket for genre `g` is the input-order sublist of
movies carrying `g` (hence no duplicates within a bucket and no drops),
and the total number of (movie, genre) pairs across buckets equals the
sum of `len(movie.genres)` over the input. -/
theorem c7_group_amended (ms : List Movie)
    (h1 : (ms.map Movie.system_name).Nodup) (h2 : ∀ x ∈ ms, x.genres.Nodup) :
    getMoviesGroupedByGenre ms
      = (dedupFirst (ms.flatMap Movie.genres)).map
          (fun g => (g, ms.filter (fun x => x.genres.contains g))) ∧
    totalPairs (getMoviesGroupedByGenre ms) = (ms.map (fun x => x.genres.length)).sum := by
  have hchar := groupByGenre_canonical ms h1 h2
  refine ⟨hchar, ?_⟩
  rw [hchar, totalPairs, List.map_map]
  have hcomp : ((fun kb : String × List Movie => kb.2.length)
      ∘ (fun g => (g, ms.filter (fun x => x.genres.contains g))))
      = fun g => (ms.filter (fun x => x.genres.contains g)).length := rfl
  rw [hcomp]
  apply sum_filter_exchange _ (dedupFirst_nodup _) ms h2
  intro x hx g hg
  rw [mem_dedupFirst]
  exact List.mem_flatMap.mpr ⟨x, hx, hg⟩

/-- Witness for C7 (amended) on a concrete two-movie list. -/
theorem c7_witness :
    (getMoviesGroupedByGenre [movieTrailingComma, movieNoDirector]
      = (dedupFirst ([movieTrailingComma, movieNoDirector].flatMap Movie.genres)).map
          (fun g => (g, [movieTrailingComma, movieNoDirector].filter
            (fun x => x.genres.contains g)))) ∧
    totalPairs (getMoviesGroupedByGenre [movieTrailingComma, movieNoDirector])
      = ([movieTrailingComma, movieNoDirector].map (fun x => x.genres.length)).sum :=
  c7_group_amended [movieTrailingComma, movieNoDirector] (by decide) (by decide)

end Netflux
